import Mathlib

/-!
Shallow embedding of the version-bump, label-resolution, release-creation and
submodule-update logic of `github_ops.py` (class `GitHubOps`), together with
proofs of the specification's claims about them.

Effectful parts are embedded by making the effects explicit:
* the wall clock (`datetime.now().strftime("%Y%m%d%H%M%S")`) becomes a `now : String`
  parameter holding the formatted timestamp;
* HTTP responses become records carrying the status code and the JSON fields the
  code reads; `response.raise_for_status()` becomes an `Except` value;
* the local filesystem becomes the list of existing paths;
* subprocess/git calls become events in an emitted trace, with an environment
  record saying which calls succeed.
-/

namespace GithubOps

/-! ### Python string primitives used by `bump_version` -/

/-- Python `s.lstrip("v")`: drop every leading `'v'` character. -/
def lstrip (c : Char) (s : String) : String :=
  ⟨s.data.dropWhile (fun ch => ch == c)⟩

/-- Python `s.split(sep)` for a one-character separator: the result is always
nonempty, and empty fields are kept (`"--".split("-") == ["", "", ""]`). -/
def pySplitOn (sep : Char) : List Char → List (List Char)
  | [] => [[]]
  | ch :: rest =>
    let r := pySplitOn sep rest
    if ch == sep then [] :: r
    else (ch :: r.headD []) :: r.tail

/-- Value of a nonempty decimal digit string, as folded up left to right. -/
def digitsToNat (l : List Char) : Nat :=
  l.foldl (fun a ch => 10 * a + (ch.toNat - 48)) 0

/-- Python `int(s)` on a plain decimal string: an optional sign followed by at
least one digit; anything else raises `ValueError`, modelled as `none`. -/
def pyInt? (s : String) : Option Int :=
  match s.data with
  | '+' :: rest =>
    if rest ≠ [] ∧ rest.all Char.isDigit then some (digitsToNat rest) else none
  | '-' :: rest =>
    if rest ≠ [] ∧ rest.all Char.isDigit then some (-(digitsToNat rest : Int)) else none
  | l =>
    if l ≠ [] ∧ l.all Char.isDigit then some (digitsToNat l) else none

/-- `major, minor, patch = map(int, current.split("."))`: succeeds exactly when
the string splits on `'.'` into exactly three fields each accepted by `int`. -/
def parse3 (s : String) : Option (Int × Int × Int) :=
  match (pySplitOn '.' s.data).map (fun p => pyInt? ⟨p⟩) with
  | [some a, some b, some c] => some (a, b, c)
  | _ => none

/-- Lines 107-110 of `bump_version`: `if "-" in current: current = current.split("-")[0]`. -/
def effCore (s : String) : String :=
  if s.data.any (fun ch => ch == '-') then ⟨(pySplitOn '-' s.data).headD []⟩ else s

/-- `GitHubOps.bump_version(current_version, bump_type)`, with the formatted
wall-clock timestamp passed in as `now`. -/
def bump_version (now : String) (current_version : String) (bump_type : String) : String :=
  let current := lstrip 'v' current_version
  let bt := if bump_type = "" then "timestamp" else bump_type
  if bt = "timestamp" then
    "v" ++ current ++ "-" ++ now
  else
    match parse3 (effCore current) with
    | some (major, minor, patch) =>
      let t : Int × Int × Int :=
        if bt = "major" then (major + 1, 0, 0)
        else if bt = "minor" then (major, minor + 1, 0)
        else if bt = "patch" then (major, minor, patch + 1)
        else (major, minor, patch + 1)
      "v" ++ toString t.1 ++ "." ++ toString t.2.1 ++ "." ++ toString t.2.2
    | none => "v0.0.0-" ++ now

/-! ### Basic string facts -/

theorem str_ext {a b : String} (h : a.data = b.data) : a = b := by
  cases a; cases b; cases h; rfl

theorem str_data_append (a b : String) : (a ++ b).data = a.data ++ b.data :=
  String.data_append a b

theorem pySplitOn_ne_nil (sep : Char) (l : List Char) : pySplitOn sep l ≠ [] := by
  cases l with
  | nil => simp [pySplitOn]
  | cons ch rest =>
    simp only [pySplitOn]
    split <;> simp

theorem pySplitOn_not_mem (sep : Char) (l : List Char) (h : sep ∉ l) :
    pySplitOn sep l = [l] := by
  induction l with
  | nil => rfl
  | cons ch rest ih =>
    have hch : ch ≠ sep := fun he => h (he ▸ List.mem_cons_self ch rest)
    have hrest : sep ∉ rest := fun hm => h (List.mem_cons_of_mem ch hm)
    simp [pySplitOn, ih hrest, hch]

theorem pySplitOn_append (sep : Char) (l r : List Char) (h : sep ∉ l) :
    pySplitOn sep (l ++ sep :: r) = l :: pySplitOn sep r := by
  induction l with
  | nil => simp [pySplitOn]
  | cons ch rest ih =>
    have hch : ch ≠ sep := fun he => h (he ▸ List.mem_cons_self ch rest)
    have hrest : sep ∉ rest := fun hm => h (List.mem_cons_of_mem ch hm)
    simp [pySplitOn, ih hrest, hch]

/-! ### Character facts about digit strings -/

theorem digit_char_ne (c x : Char) (hd : c.isDigit = true) (hx : x.isDigit = false)
    (he : c = x) : False := by
  rw [he] at hd; rw [hd] at hx; exact absurd hx (by decide)

theorem digit_not_mem (l : List Char) (x : Char) (hall : l.all Char.isDigit = true)
    (hx : x.isDigit = false) : x ∉ l := by
  intro hm
  exact digit_char_ne x x (List.all_eq_true.mp hall x hm) hx rfl

theorem dropWhile_v_of_digit_head (l m : List Char) (h1 : l.all Char.isDigit = true)
    (h2 : l ≠ []) : (l ++ m).dropWhile (fun ch => ch == 'v') = l ++ m := by
  cases l with
  | nil => exact absurd rfl h2
  | cons d ds =>
    have hd : d.isDigit = true := by
      simp only [List.all_cons, Bool.and_eq_true] at h1
      exact h1.1
    have hne : (d == 'v') = false := by
      rw [beq_eq_false_iff_ne]
      intro he
      exact digit_char_ne d 'v' hd (by decide) he
    simp [List.dropWhile_cons, hne]

theorem lstrip_v_wellformed (a rest : String) (ha : a.data.all Char.isDigit = true)
    (hane : a.data ≠ []) :
    lstrip 'v' ("v" ++ a ++ rest) = a ++ rest := by
  apply str_ext
  show (("v" ++ a ++ rest).data.dropWhile (fun ch => ch == 'v')) = (a ++ rest).data
  rw [str_data_append, str_data_append, str_data_append]
  show (('v' :: a.data) ++ rest.data).dropWhile (fun ch => ch == 'v') = a.data ++ rest.data
  rw [List.cons_append, List.dropWhile_cons]
  simp only [beq_self_eq_true, if_true]
  exact dropWhile_v_of_digit_head a.data rest.data ha hane

/-! ### Evaluating the pipeline on well-formed version strings -/

theorem data_v : ("v" : String).data = ['v'] := rfl

theorem data_dot : ("." : String).data = ['.'] := rfl

theorem data_dash : ("-" : String).data = ['-'] := rfl

theorem data_empty : ("" : String).data = [] := rfl

/-- A version string assembled from three numeric fields and a trailing rest. -/
def wfInput (a b c rest : String) : String :=
  "v" ++ a ++ "." ++ b ++ "." ++ c ++ rest

theorem wfInput_data (a b c rest : String) :
    (wfInput a b c rest).data =
      'v' :: (a.data ++ '.' :: (b.data ++ '.' :: (c.data ++ rest.data))) := by
  simp [wfInput, str_data_append, data_v, data_dot, List.append_assoc]

theorem lstrip_wfInput (a b c rest : String) (ha : a.data.all Char.isDigit = true)
    (hane : a.data ≠ []) :
    lstrip 'v' (wfInput a b c rest) =
      ⟨a.data ++ '.' :: (b.data ++ '.' :: (c.data ++ rest.data))⟩ := by
  apply str_ext
  show (wfInput a b c rest).data.dropWhile (fun ch => ch == 'v') = _
  rw [wfInput_data, List.dropWhile_cons]
  simp only [show (('v' : Char) == 'v') = true from rfl, if_true]
  exact dropWhile_v_of_digit_head a.data _ ha hane

theorem dash_not_mem_core (a b c : String) (ha : a.data.all Char.isDigit = true)
    (hb : b.data.all Char.isDigit = true) (hc : c.data.all Char.isDigit = true) :
    '-' ∉ (a.data ++ '.' :: (b.data ++ '.' :: c.data)) := by
  intro hmem
  rcases List.mem_append.mp hmem with h | h
  · exact digit_not_mem a.data '-' ha (by decide) h
  rcases List.mem_cons.mp h with h | h
  · exact absurd h (by decide)
  rcases List.mem_append.mp h with h | h
  · exact digit_not_mem b.data '-' hb (by decide) h
  rcases List.mem_cons.mp h with h | h
  · exact absurd h (by decide)
  · exact digit_not_mem c.data '-' hc (by decide) h

theorem parse3_core (a b c : String) (M m p : Int)
    (ha : a.data.all Char.isDigit = true) (hb : b.data.all Char.isDigit = true)
    (hc : c.data.all Char.isDigit = true)
    (hM : pyInt? a = some M) (hm : pyInt? b = some m) (hp : pyInt? c = some p) :
    parse3 ⟨a.data ++ '.' :: (b.data ++ '.' :: c.data)⟩ = some (M, m, p) := by
  have hdotA : '.' ∉ a.data := digit_not_mem _ _ ha (by decide)
  have hdotB : '.' ∉ b.data := digit_not_mem _ _ hb (by decide)
  have hdotC : '.' ∉ c.data := digit_not_mem _ _ hc (by decide)
  have hsplit : pySplitOn '.' (a.data ++ '.' :: (b.data ++ '.' :: c.data)) =
      [a.data, b.data, c.data] := by
    rw [pySplitOn_append '.' a.data _ hdotA, pySplitOn_append '.' b.data _ hdotB,
      pySplitOn_not_mem '.' c.data hdotC]
  show (match (pySplitOn '.' (String.mk (a.data ++ '.' :: (b.data ++ '.' :: c.data))).data).map
      (fun p => pyInt? ⟨p⟩) with
    | [some x, some y, some z] => some (x, y, z)
    | _ => none) = some (M, m, p)
  rw [show (String.mk (a.data ++ '.' :: (b.data ++ '.' :: c.data))).data =
      a.data ++ '.' :: (b.data ++ '.' :: c.data) from rfl, hsplit]
  simp only [List.map_cons, List.map_nil]
  rw [show (⟨a.data⟩ : String) = a from rfl, show (⟨b.data⟩ : String) = b from rfl,
    show (⟨c.data⟩ : String) = c from rfl, hM, hm, hp]

/-- Evaluation of the `bump_version` parsing pipeline on a well-formed
`v{M}.{m}.{p}` input, optionally carrying a `-...` suffix. -/
theorem bump_core_eval (a b c rest : String) (M m p : Int)
    (ha : a.data.all Char.isDigit = true) (hane : a.data ≠ [])
    (hb : b.data.all Char.isDigit = true)
    (hc : c.data.all Char.isDigit = true)
    (hM : pyInt? a = some M) (hm : pyInt? b = some m) (hp : pyInt? c = some p)
    (hrest : rest = "" ∨ ∃ t : String, rest = "-" ++ t) :
    parse3 (effCore (lstrip 'v' (wfInput a b c rest))) = some (M, m, p) := by
  have hdash : '-' ∉ (a.data ++ '.' :: (b.data ++ '.' :: c.data)) :=
    dash_not_mem_core a b c ha hb hc
  rw [lstrip_wfInput a b c rest ha hane]
  rcases hrest with hr | ⟨t, hr⟩
  · subst hr
    have hdata : (⟨a.data ++ '.' :: (b.data ++ '.' :: (c.data ++ ("" : String).data))⟩ : String) =
        ⟨a.data ++ '.' :: (b.data ++ '.' :: c.data)⟩ := by
      apply str_ext
      simp [data_empty]
    rw [hdata]
    have hnodash : ((a.data ++ '.' :: (b.data ++ '.' :: c.data)).any fun ch => ch == '-') = false := by
      cases h : (a.data ++ '.' :: (b.data ++ '.' :: c.data)).any fun ch => ch == '-' with
      | false => rfl
      | true =>
        exfalso
        obtain ⟨x, hx, hbx⟩ := List.any_eq_true.mp h
        have hxeq : x = '-' := by simpa using hbx
        exact hdash (hxeq ▸ hx)
    rw [show effCore ⟨a.data ++ '.' :: (b.data ++ '.' :: c.data)⟩ =
        ⟨a.data ++ '.' :: (b.data ++ '.' :: c.data)⟩ from by simp [effCore, hnodash]]
    exact parse3_core a b c M m p ha hb hc hM hm hp
  · subst hr
    have hdata : (⟨a.data ++ '.' :: (b.data ++ '.' :: (c.data ++ ("-" ++ t : String).data))⟩ : String) =
        ⟨(a.data ++ '.' :: (b.data ++ '.' :: c.data)) ++ '-' :: t.data⟩ := by
      apply str_ext
      simp [str_data_append, data_dash, List.append_assoc]
    rw [hdata]
    have hyesdash : (((a.data ++ '.' :: (b.data ++ '.' :: c.data)) ++ '-' :: t.data).any
        fun ch => ch == '-') = true := by
      apply List.any_eq_true.mpr
      exact ⟨'-', by simp, by simp⟩
    have heff : effCore ⟨(a.data ++ '.' :: (b.data ++ '.' :: c.data)) ++ '-' :: t.data⟩ =
        ⟨a.data ++ '.' :: (b.data ++ '.' :: c.data)⟩ := by
      simp only [effCore, show (String.mk ((a.data ++ '.' :: (b.data ++ '.' :: c.data)) ++ '-' :: t.data)).data =
        (a.data ++ '.' :: (b.data ++ '.' :: c.data)) ++ '-' :: t.data from rfl, hyesdash, if_true]
      rw [pySplitOn_append '-' _ t.data hdash]
      rfl
    rw [heff]
    exact parse3_core a b c M m p ha hb hc hM hm hp

theorem data_zero : ("0" : String).data = ['0'] := rfl

theorem data_dot0dot0 : (".0.0" : String).data = ['.', '0', '.', '0'] := rfl

theorem data_dot0 : (".0" : String).data = ['.', '0'] := rfl

theorem toString_int_zero : toString (0 : Int) = "0" := rfl

/-- Reduction of `bump_version` for directive `major` once the core parses. -/
theorem bump_version_major (now cv : String) (M m p : Int)
    (hcore : parse3 (effCore (lstrip 'v' cv)) = some (M, m, p)) :
    bump_version now cv "major" = "v" ++ toString (M + 1) ++ ".0.0" := by
  have e0 : (("major" : String) = "") = False := eq_false (by decide)
  have e1 : (("major" : String) = "timestamp") = False := eq_false (by decide)
  have e2 : (("major" : String) = "major") = True := eq_true rfl
  simp only [bump_version, e0, e1, e2, if_false, if_true, hcore]
  apply str_ext
  simp [str_data_append, toString_int_zero, data_zero, data_dot, data_dot0dot0,
    List.append_assoc]

/-- Reduction of `bump_version` for directive `minor` once the core parses. -/
theorem bump_version_minor (now cv : String) (M m p : Int)
    (hcore : parse3 (effCore (lstrip 'v' cv)) = some (M, m, p)) :
    bump_version now cv "minor" = "v" ++ toString M ++ "." ++ toString (m + 1) ++ ".0" := by
  have e0 : (("minor" : String) = "") = False := eq_false (by decide)
  have e1 : (("minor" : String) = "timestamp") = False := eq_false (by decide)
  have e2 : (("minor" : String) = "major") = False := eq_false (by decide)
  have e3 : (("minor" : String) = "minor") = True := eq_true rfl
  simp only [bump_version, e0, e1, e2, e3, if_false, if_true, hcore]
  apply str_ext
  simp [str_data_append, toString_int_zero, data_zero, data_dot, data_dot0,
    List.append_assoc]

/-- Reduction of `bump_version` for directive `patch` once the core parses. -/
theorem bump_version_patch (now cv : String) (M m p : Int)
    (hcore : parse3 (effCore (lstrip 'v' cv)) = some (M, m, p)) :
    bump_version now cv "patch" = "v" ++ toString M ++ "." ++ toString m ++ "." ++ toString (p + 1) := by
  have e0 : (("patch" : String) = "") = False := eq_false (by decide)
  have e1 : (("patch" : String) = "timestamp") = False := eq_false (by decide)
  have e2 : (("patch" : String) = "major") = False := eq_false (by decide)
  have e3 : (("patch" : String) = "minor") = False := eq_false (by decide)
  have e4 : (("patch" : String) = "patch") = True := eq_true rfl
  simp only [bump_version, e0, e1, e2, e3, e4, if_false, if_true, hcore]

/-! ### Claims about `bump_version` -/

/-- C10: for every input string `s`, `bump_version(s, "timestamp")` performs no
parsing or validation: it returns exactly `"v"` followed by `s` with all leading
`'v'` characters removed, a `"-"`, and the freshly generated timestamp. It never
falls back to `v0.0.0` and (being a total function of its inputs) never raises. -/
theorem bump_timestamp_path_exact (now s : String) :
    bump_version now s "timestamp" = "v" ++ lstrip 'v' s ++ "-" ++ now := by
  have e0 : (("timestamp" : String) = "") = False := eq_false (by decide)
  have e1 : (("timestamp" : String) = "timestamp") = True := eq_true rfl
  simp only [bump_version, e0, e1, if_false, if_true]

/-- C3: for every input whose numeric core (leading `v`s stripped, then cut at
the first `-`) does not parse as exactly three dot-separated integers,
`bump_version` under an arithmetic directive (`major`/`minor`/`patch`) does not
propagate the parse failure: it returns `"v0.0.0-"` followed by the freshly
generated timestamp. -/
theorem bump_malformed_fallback (now s d : String)
    (hd : d = "major" ∨ d = "minor" ∨ d = "patch")
    (hparse : parse3 (effCore (lstrip 'v' s)) = none) :
    bump_version now s d = "v0.0.0-" ++ now := by
  have emaj0 : (("major" : String) = "") = False := eq_false (by decide)
  have emaj1 : (("major" : String) = "timestamp") = False := eq_false (by decide)
  have emin0 : (("minor" : String) = "") = False := eq_false (by decide)
  have emin1 : (("minor" : String) = "timestamp") = False := eq_false (by decide)
  have epat0 : (("patch" : String) = "") = False := eq_false (by decide)
  have epat1 : (("patch" : String) = "timestamp") = False := eq_false (by decide)
  rcases hd with h | h | h <;> subst h
  · simp only [bump_version, emaj0, emaj1, if_false, hparse]
  · simp only [bump_version, emin0, emin1, if_false, hparse]
  · simp only [bump_version, epat0, epat1, if_false, hparse]

/-- Witness for C3 at the spec's own example: `bump("not-a-version", patch)`
recovers to `v0.0.0-TIMESTAMP`. -/
theorem bump_malformed_fallback_witness :
    bump_version "20240101000000" "not-a-version" "patch" = "v0.0.0-20240101000000" := by
  have h := bump_malformed_fallback "20240101000000" "not-a-version" "patch"
    (Or.inr (Or.inr rfl)) (by decide)
  rw [h]
  decide

/-- C2: for every well-formed input `v{M}.{m}.{p}`, optionally carrying a
`-TIMESTAMP` suffix (here: any suffix starting with `-`), the arithmetic
directives bump exactly one component, reset the lower-order ones to 0, leave
higher-order ones unchanged, strip the suffix before the arithmetic, omit it
from the result, and produce a leading `v`. -/
theorem bump_arith_directives (now a b c rest : String) (M m p : Int)
    (ha : a.data.all Char.isDigit = true) (hane : a.data ≠ [])
    (hb : b.data.all Char.isDigit = true)
    (hc : c.data.all Char.isDigit = true)
    (hM : pyInt? a = some M) (hm : pyInt? b = some m) (hp : pyInt? c = some p)
    (hrest : rest = "" ∨ ∃ t : String, rest = "-" ++ t) :
    bump_version now (wfInput a b c rest) "major" = "v" ++ toString (M + 1) ++ ".0.0" ∧
    bump_version now (wfInput a b c rest) "minor" =
      "v" ++ toString M ++ "." ++ toString (m + 1) ++ ".0" ∧
    bump_version now (wfInput a b c rest) "patch" =
      "v" ++ toString M ++ "." ++ toString m ++ "." ++ toString (p + 1) := by
  have hcore := bump_core_eval a b c rest M m p ha hane hb hc hM hm hp hrest
  exact ⟨bump_version_major now _ M m p hcore, bump_version_minor now _ M m p hcore,
    bump_version_patch now _ M m p hcore⟩

/-- Witness for C2 at the spec's example `bump(v1.2.3-20240101000000, patch) == v1.2.4`
(and the `major`/`minor` companions). -/
theorem bump_arith_directives_witness :
    bump_version "20250102030405" (wfInput "1" "2" "3" "-20240101000000") "major" =
      "v" ++ toString (1 + 1 : Int) ++ ".0.0" ∧
    bump_version "20250102030405" "v1.2.3-20240101000000" "patch" = "v1.2.4" := by
  have h := bump_arith_directives "20250102030405" "1" "2" "3" "-20240101000000" 1 2 3
    (by decide) (by decide) (by decide) (by decide) (by decide) (by decide) (by decide)
    (Or.inr ⟨"20240101000000", rfl⟩)
  refine ⟨h.1, ?_⟩
  have h2 := h.2.2
  rw [show ("v1.2.3-20240101000000" : String) = wfInput "1" "2" "3" "-20240101000000" from rfl]
  rw [h2]
  decide

/-- Reduction of `bump_version` for an empty directive: it defaults to the
timestamp path. -/
theorem bump_empty_path_exact (now s : String) :
    bump_version now s "" = "v" ++ lstrip 'v' s ++ "-" ++ now := by
  have e0 : (("" : String) = "") = True := eq_true rfl
  have e1 : (("timestamp" : String) = "timestamp") = True := eq_true rfl
  simp only [bump_version, e0, e1, if_true]

/-- Reduction of `bump_version` for a non-empty unrecognized directive: it takes
the arithmetic branch and performs a patch bump. -/
theorem bump_version_unknown (now cv d : String) (M m p : Int)
    (h0 : d ≠ "") (h1 : d ≠ "timestamp") (h2 : d ≠ "major") (h3 : d ≠ "minor")
    (h4 : d ≠ "patch")
    (hcore : parse3 (effCore (lstrip 'v' cv)) = some (M, m, p)) :
    bump_version now cv d = "v" ++ toString M ++ "." ++ toString m ++ "." ++ toString (p + 1) := by
  simp only [bump_version, eq_false h0, eq_false h1, eq_false h2, eq_false h3,
    eq_false h4, if_false, hcore]

/-- C1 counterexample: on a current version already carrying a `-TIMESTAMP`
suffix, the timestamp path does NOT strip the old suffix first — the result
carries two timestamp suffixes, not exactly one; and a non-empty unrecognized
directive does not take the timestamp path at all — it performs a patch bump. -/
theorem bump_timestamp_strip_refuted :
    bump_version "20250102030405" "v1.2.3-20240101000000" "timestamp" ≠
      "v1.2.3-20250102030405" ∧
    bump_version "20250102030405" "v1.2.3-20240101000000" "timestamp" =
      "v1.2.3-20240101000000-20250102030405" ∧
    bump_version "20250102030405" "v1.2.3" "weird" = "v1.2.4" := by
  decide

/-- C1 as amended: for a current version `v{M}.{m}.{p}-TIMESTAMP`, the directives
`timestamp` and empty leave the MAJOR.MINOR.PATCH core unchanged and append a
newly generated `-TIMESTAMP` to the whole current string WITHOUT stripping the
existing suffix (so the result carries both suffixes); a non-empty unrecognized
directive instead takes the arithmetic branch and performs a patch bump. -/
theorem bump_timestamp_appends_without_strip (now a b c ts0 : String) (M m p : Int)
    (ha : a.data.all Char.isDigit = true) (hane : a.data ≠ [])
    (hb : b.data.all Char.isDigit = true)
    (hc : c.data.all Char.isDigit = true)
    (hM : pyInt? a = some M) (hm : pyInt? b = some m) (hp : pyInt? c = some p) :
    bump_version now (wfInput a b c ("-" ++ ts0)) "timestamp" =
      wfInput a b c ("-" ++ ts0) ++ "-" ++ now ∧
    bump_version now (wfInput a b c ("-" ++ ts0)) "" =
      wfInput a b c ("-" ++ ts0) ++ "-" ++ now ∧
    (∀ d, d ≠ "" → d ≠ "timestamp" → d ≠ "major" → d ≠ "minor" → d ≠ "patch" →
      bump_version now (wfInput a b c ("-" ++ ts0)) d =
        "v" ++ toString M ++ "." ++ toString m ++ "." ++ toString (p + 1)) := by
  have hcore := bump_core_eval a b c ("-" ++ ts0) M m p ha hane hb hc hM hm hp
    (Or.inr ⟨ts0, rfl⟩)
  have hts : bump_version now (wfInput a b c ("-" ++ ts0)) "timestamp" =
      wfInput a b c ("-" ++ ts0) ++ "-" ++ now := by
    rw [bump_timestamp_path_exact, lstrip_wfInput a b c _ ha hane]
    apply str_ext
    simp [str_data_append, wfInput_data, data_v, data_dash, List.append_assoc]
  refine ⟨hts, ?_, ?_⟩
  · rw [bump_empty_path_exact, lstrip_wfInput a b c _ ha hane]
    apply str_ext
    simp [str_data_append, wfInput_data, data_v, data_dash, List.append_assoc]
  · intro d h0 h1 h2 h3 h4
    exact bump_version_unknown now _ d M m p h0 h1 h2 h3 h4 hcore

/-- Witness for the amended C1 at concrete inputs. -/
theorem bump_timestamp_appends_without_strip_witness :
    bump_version "20250102030405" (wfInput "1" "2" "3" ("-" ++ "20240101000000")) "timestamp" =
      wfInput "1" "2" "3" ("-" ++ "20240101000000") ++ "-" ++ "20250102030405" ∧
    bump_version "20250102030405" "v1.2.3-20240101000000" "weird" = "v1.2.4" := by
  have h := bump_timestamp_appends_without_strip "20250102030405" "1" "2" "3"
    "20240101000000" 1 2 3 (by decide) (by decide) (by decide) (by decide)
    (by decide) (by decide) (by decide)
  refine ⟨h.1, ?_⟩
  have h2 := h.2.2 "weird" (by decide) (by decide) (by decide) (by decide) (by decide)
  rw [show ("v1.2.3-20240101000000" : String) =
    wfInput "1" "2" "3" ("-" ++ "20240101000000") from by decide]
  rw [h2]
  decide

/-! ### `determine_version_type` (LabelResolver) -/

/-- A PR label object; the code reads only its `name` field. -/
structure Label where
  name : String
deriving DecidableEq

/-- The `label_mapping` dict lookup of `determine_version_type`. -/
def label_mapping (name : String) : Option String :=
  if name = "semver:major" then some "major"
  else if name = "semver:minor" then some "minor"
  else if name = "semver:patch" then some "patch"
  else none

/-- `GitHubOps.determine_version_type(pr_labels)`: scan the labels in order and
return the first mapped directive, else `"timestamp"`. -/
def determine_version_type : List Label → String
  | [] => "timestamp"
  | l :: rest =>
    match label_mapping l.name with
    | some t => t
    | none => determine_version_type rest

theorem label_mapping_values (n t : String) (h : label_mapping n = some t) :
    t = "major" ∨ t = "minor" ∨ t = "patch" := by
  unfold label_mapping at h
  split at h
  · exact Or.inl (Option.some.inj h).symm
  split at h
  · exact Or.inr (Or.inl (Option.some.inj h).symm)
  split at h
  · exact Or.inr (Or.inr (Option.some.inj h).symm)
  · exact absurd h (by simp)

/-- C8: the first label (in sequence order) whose name is exactly one of the
three `semver:*` names decides the directive; if no label matches, the result
is `timestamp`; on the spec's example the first match wins; and the function is
total with values confined to the four directives. -/
theorem determine_version_type_spec :
    (∀ (pre : List Label) (l : Label) (post : List Label) (d : String),
      (∀ x ∈ pre, label_mapping x.name = none) → label_mapping l.name = some d →
      determine_version_type (pre ++ l :: post) = d) ∧
    (∀ labels : List Label, (∀ x ∈ labels, label_mapping x.name = none) →
      determine_version_type labels = "timestamp") ∧
    determine_version_type [⟨"semver:minor"⟩, ⟨"semver:major"⟩] = "minor" ∧
    (∀ labels : List Label,
      determine_version_type labels = "major" ∨ determine_version_type labels = "minor" ∨
      determine_version_type labels = "patch" ∨ determine_version_type labels = "timestamp") := by
  refine ⟨?_, ?_, by decide, ?_⟩
  · intro pre l post d hpre hl
    induction pre with
    | nil => simp [determine_version_type, hl]
    | cons x xs ih =>
      have hx : label_mapping x.name = none := hpre x (List.mem_cons_self x xs)
      have hxs : ∀ y ∈ xs, label_mapping y.name = none :=
        fun y hy => hpre y (List.mem_cons_of_mem x hy)
      simp [determine_version_type, hx, ih hxs]
  · intro labels hall
    induction labels with
    | nil => rfl
    | cons x xs ih =>
      have hx : label_mapping x.name = none := hall x (List.mem_cons_self x xs)
      have hxs : ∀ y ∈ xs, label_mapping y.name = none :=
        fun y hy => hall y (List.mem_cons_of_mem x hy)
      simp [determine_version_type, hx, ih hxs]
  · intro labels
    induction labels with
    | nil => exact Or.inr (Or.inr (Or.inr rfl))
    | cons x xs ih =>
      cases hx : label_mapping x.name with
      | none => simpa [determine_version_type, hx] using ih
      | some t =>
        rcases label_mapping_values x.name t hx with h | h | h <;>
          simp [determine_version_type, hx, h]

/-- Witness for C8: a non-matching label followed by `semver:minor` then
`semver:major` resolves to `minor`. -/
theorem determine_version_type_spec_witness :
    determine_version_type [⟨"unrelated"⟩, ⟨"semver:minor"⟩, ⟨"semver:major"⟩] = "minor" := by
  have h := determine_version_type_spec.1 [⟨"unrelated"⟩] ⟨"semver:minor"⟩
    [⟨"semver:major"⟩] "minor" (by decide) (by decide)
  simpa using h

/-! ### `get_latest_version` (ReleaseRepository.latestVersion) -/

/-- Errors surfaced by the embedded operations. -/
inductive OpsError
  | httpError (status : Nat)
  | fileNotFound (path : String)
  | calledProcessError
deriving DecidableEq

deriving instance DecidableEq for Except

/-- `requests.Response.raise_for_status()`: raises `HTTPError` exactly for
4xx/5xx status codes. -/
def raise_for_status (status : Nat) : Except OpsError Unit :=
  if 400 ≤ status ∧ status < 600 then .error (.httpError status) else .ok ()

/-- The response to `GET /releases/latest`, carrying the fields the code reads. -/
structure LatestReleaseResponse where
  status_code : Nat
  tag_name : String
deriving DecidableEq

/-- `GitHubOps.get_latest_version()`: `404` maps to `"v0.0.0"`, any other
4xx/5xx raises via `raise_for_status`, otherwise the response's `tag_name` is
returned. -/
def get_latest_version (resp : LatestReleaseResponse) : Except OpsError String :=
  if resp.status_code = 404 then .ok "v0.0.0"
  else
    match raise_for_status resp.status_code with
    | .error e => .error e
    | .ok _ => .ok resp.tag_name

/-- C9: `get_latest_version` returns `v0.0.0` exactly on a 404 (not raised as an
error), returns the response's `tag_name` on a 2xx, and propagates any other
failure status (4xx/5xx other than 404) as an error. -/
theorem get_latest_version_spec (resp : LatestReleaseResponse) :
    (resp.status_code = 404 → get_latest_version resp = .ok "v0.0.0") ∧
    (200 ≤ resp.status_code ∧ resp.status_code < 300 →
      get_latest_version resp = .ok resp.tag_name) ∧
    (400 ≤ resp.status_code ∧ resp.status_code < 600 ∧ resp.status_code ≠ 404 →
      get_latest_version resp = .error (.httpError resp.status_code)) := by
  refine ⟨fun h => by simp [get_latest_version, h], fun h => ?_, fun h => ?_⟩
  · have h404 : resp.status_code ≠ 404 := by omega
    have hok : ¬(400 ≤ resp.status_code ∧ resp.status_code < 600) := by omega
    simp [get_latest_version, h404, raise_for_status, hok]
  · have hraise : 400 ≤ resp.status_code ∧ resp.status_code < 600 := ⟨h.1, h.2.1⟩
    simp [get_latest_version, h.2.2, raise_for_status, hraise]

/-- Witness for C9 at statuses 404, 200 and 500. -/
theorem get_latest_version_spec_witness :
    get_latest_version ⟨404, "v9.9.9"⟩ = .ok "v0.0.0" ∧
    get_latest_version ⟨200, "v1.2.3"⟩ = .ok "v1.2.3" ∧
    get_latest_version ⟨500, "ignored"⟩ = .error (.httpError 500) := by
  exact ⟨(get_latest_version_spec ⟨404, "v9.9.9"⟩).1 rfl,
    (get_latest_version_spec ⟨200, "v1.2.3"⟩).2.1 (by decide),
    (get_latest_version_spec ⟨500, "ignored"⟩).2.2 (by decide)⟩

/-! ### `create_release` and `upload_release_asset` -/

/-- HTTP requests issued by the release workflow, in order of emission. -/
inductive RelEvent
  | createReleasePost (tag_name : String) (draft : Bool)
  | assetUploadPost (file_name : String)
deriving DecidableEq

/-- The collaborators of the release workflow: the status the platform answers
with to the release POST, the id it assigns, the set of local files that exist
(`os.path.exists`), and the status of the asset upload POST. -/
structure ReleaseEnv where
  create_status : Nat
  release_id : Int
  files : List String
  upload_status : Nat
deriving DecidableEq

/-- `GitHubOps.upload_release_asset(release_id, file_path, file_name)`: raises
`FileNotFoundError` before issuing any upload request when the file does not
exist locally; otherwise posts the asset, and any status other than 201 is
reported and re-raised through `raise_for_status` (a non-201 non-error status
falls through to reading the response body, modelled as success). -/
def upload_release_asset (env : ReleaseEnv) (file_path : String) (file_name : String) :
    List RelEvent × Except OpsError Unit :=
  if file_path ∈ env.files then
    ([.assetUploadPost file_name],
      if env.upload_status ≠ 201 then
        match raise_for_status env.upload_status with
        | .error e => .error e
        | .ok _ => .ok ()
      else .ok ())
  else ([], .error (.fileNotFound file_path))

/-- `GitHubOps.create_release(version, is_draft, skip_asset)`: posts the release,
raises on a 4xx/5xx answer, then unless `skip_asset` uploads `release.tar.gz`,
re-raising any upload failure (`except ... raise`). -/
def create_release (env : ReleaseEnv) (version : String) (is_draft : Bool)
    (skip_asset : Bool) : List RelEvent × Except OpsError Int :=
  match raise_for_status env.create_status with
  | .error e => ([.createReleasePost version is_draft], .error e)
  | .ok _ =>
    if skip_asset then ([.createReleasePost version is_draft], .ok env.release_id)
    else
      match upload_release_asset env "release.tar.gz" "release.tar.gz" with
      | (evs, .error e) => ([.createReleasePost version is_draft] ++ evs, .error e)
      | (evs, .ok _) => ([.createReleasePost version is_draft] ++ evs, .ok env.release_id)

/-- C4 counterexample: with `skip_asset = false` and no local `release.tar.gz`,
`create_release` does NOT return the release id to the caller — the
file-not-found error propagates out (`except Exception ... raise`), so the call
produces an error, not the claimed id. -/
theorem create_release_id_returned_refuted :
    (create_release ⟨201, 7, [], 201⟩ "v1.1.0" false false).2 ≠ Except.ok (7 : Int) ∧
    (create_release ⟨201, 7, [], 201⟩ "v1.1.0" false false).2 =
      Except.error (.fileNotFound "release.tar.gz") := by
  decide

/-- C4 as amended: when `skip_asset` is false, the asset file `release.tar.gz`
does not exist locally, and the release POST itself succeeded, the release has
already been created (the creation request is in the trace) and the asset step
fails with file-not-found semantics before any upload attempt (no upload request
in the trace); the error propagates, so the release id is NOT returned — the
run is fatal. -/
theorem create_release_missing_asset_fatal (env : ReleaseEnv) (version : String)
    (is_draft : Bool)
    (hcreate : ¬(400 ≤ env.create_status ∧ env.create_status < 600))
    (hfile : "release.tar.gz" ∉ env.files) :
    create_release env version is_draft false =
      ([.createReleasePost version is_draft], .error (.fileNotFound "release.tar.gz")) := by
  simp [create_release, raise_for_status, hcreate, upload_release_asset, hfile]

/-- Witness for the amended C4 at a concrete environment. -/
theorem create_release_missing_asset_fatal_witness :
    create_release ⟨201, 7, ["other.txt"], 201⟩ "v1.1.0" false false =
      ([.createReleasePost "v1.1.0" false], .error (.fileNotFound "release.tar.gz")) :=
  create_release_missing_asset_fatal ⟨201, 7, ["other.txt"], 201⟩ "v1.1.0" false
    (by decide) (by decide)

/-! ### `create_submodule_pr` and `update_submodule` (SubmoduleUpdater) -/

/-- The JSON payload of `POST /repos/{owner}/{parent_repo}/pulls`. -/
structure PrRequest where
  title : String
  body : String
  head : String
  base : String
deriving DecidableEq

/-- Platform answers to the three HTTP calls of `create_submodule_pr`. -/
structure PrEnv where
  pr_status : Nat
  pr_number : Int
  label_status : Nat
  merge_status : Nat
deriving DecidableEq

/-- External calls made by the submodule workflow, in order of emission.
`clone` … `gitPush` are the `subprocess` git invocations of `update_submodule`
(`makedirs` is the `os.makedirs` directory creation); the last three are the
HTTP calls of `create_submodule_pr`. -/
inductive GitEvent
  | clone
  | makedirs
  | submoduleInit
  | submoduleUpdate
  | submoduleAdd
  | checkoutBranch (branch : String)
  | revParseOld
  | fetchOrigin
  | checkoutVersion (version : String)
  | revParseNew
  | gitAdd (path : String)
  | gitCommit (message : String)
  | gitPush (branch : String)
  | postPullRequest (req : PrRequest)
  | postLabels (labels : List String)
  | putMerge (commit_title : String) (commit_message : String)
deriving DecidableEq

/-- `GitHubOps.create_submodule_pr(parent_repo, branch_name, version, old_commit,
new_commit)`: posts the PR (raising on a 4xx/5xx answer), then best-effort adds
the `semver:patch` label and best-effort merges; the label and merge statuses
are only compared against 200 for logging and never affect the returned PR
number. First, the PR payload built at the top of the function. -/
def submodulePrRequest (repo_name branch_name version old_commit new_commit : String) :
    PrRequest :=
  { title := "Update " ++ repo_name ++ " submodule to " ++ version,
    body := "This PR updates the " ++ repo_name ++ " submodule from commit `" ++
      old_commit ++ "` to `" ++ new_commit ++ "`\n\nVersion: " ++ version,
    head := branch_name,
    base := "master" }

def create_submodule_pr (env : PrEnv) (repo_name parent_repo branch_name version
    old_commit new_commit : String) : List GitEvent × Except OpsError Int :=
  let req : PrRequest :=
    submodulePrRequest repo_name branch_name version old_commit new_commit
  match raise_for_status env.pr_status with
  | .error e => ([.postPullRequest req], .error e)
  | .ok _ =>
    ([.postPullRequest req,
      .postLabels ["semver:patch"],
      .putMerge ("chore: update " ++ repo_name ++ " submodule to " ++ version ++
          " (#" ++ toString env.pr_number ++ ")")
        ("Update " ++ repo_name ++ " submodule from commit `" ++ old_commit ++
          "` to `" ++ new_commit ++ "`\n\nVersion: " ++ version)],
     .ok env.pr_number)

/-- The collaborators of `update_submodule`: which git subprocesses succeed,
which filesystem checks hold, the commit ids reported by `git rev-parse`
(`old_commit = none` models the caught `CalledProcessError` that yields the
`"initial"` sentinel; `new_commit = none` models the uncaught failure of the
second `rev-parse`), and the PR-related platform answers. -/
structure SubmoduleEnv where
  clone_ok : Bool
  path_exists : Bool
  submodule_init_ok : Bool
  submodule_update_ok : Bool
  git_dir_exists : Bool
  submodule_add_ok : Bool
  branch_ok : Bool
  old_commit : Option String
  fetch_ok : Bool
  checkout_ok : Bool
  new_commit : Option String
  stage_ok : Bool
  commit_ok : Bool
  push_ok : Bool
  pr : PrEnv
deriving DecidableEq

/-- Run a straight-line sequence of side-effecting steps, each given as the
events it emits and whether it succeeds; a failing step aborts the rest
(`subprocess.run(..., check=True)` raising `CalledProcessError`). -/
def runSteps : List (List GitEvent × Bool) → List GitEvent × Bool
  | [] => ([], true)
  | (evs, ok) :: rest =>
    if ok then
      let r := runSteps rest
      (evs ++ r.1, r.2)
    else (evs, false)

/-- The git stages of `update_submodule` in source order: clone, conditional
`os.makedirs`, scoped submodule init and update, conditional `submodule add`,
`checkout -b`, the caught `rev-parse HEAD`, fetch, checkout of the target
version, the fatal `rev-parse HEAD`, `git add`, `git commit`, `git push`. -/
def gitSteps (env : SubmoduleEnv) (submodule_path new_version repo_name : String) :
    List (List GitEvent × Bool) :=
  let branch_name := "update-" ++ repo_name ++ "-" ++ new_version
  [([.clone], env.clone_ok),
   (if env.path_exists then [] else [.makedirs], true),
   ([.submoduleInit], env.submodule_init_ok),
   ([.submoduleUpdate], env.submodule_update_ok),
   (if env.git_dir_exists then ([], true) else ([.submoduleAdd], env.submodule_add_ok)),
   ([.checkoutBranch branch_name], env.branch_ok),
   ([.revParseOld], true),
   ([.fetchOrigin], env.fetch_ok),
   ([.checkoutVersion new_version], env.checkout_ok),
   ([.revParseNew], env.new_commit.isSome),
   ([.gitAdd submodule_path], env.stage_ok),
   ([.gitCommit ("chore: update " ++ repo_name ++ " submodule to " ++ new_version)],
     env.commit_ok),
   ([.gitPush branch_name], env.push_ok)]

/-- `GitHubOps.update_submodule(parent_repo, submodule_path, new_version)`:
run the git stages in order (any failure aborts the remaining stages and the
run), then create the PR via `create_submodule_pr`, passing the recorded old
commit (or the `"initial"` sentinel) and the new commit. -/
def update_submodule (env : SubmoduleEnv) (parent_repo submodule_path new_version
    repo_name : String) : List GitEvent × Except OpsError Int :=
  let branch_name := "update-" ++ repo_name ++ "-" ++ new_version
  let r := runSteps (gitSteps env submodule_path new_version repo_name)
  if r.2 then
    let old_commit := match env.old_commit with | some cm => cm | none => "initial"
    let pr := create_submodule_pr env.pr repo_name parent_repo branch_name new_version
      old_commit (env.new_commit.getD "")
    (r.1 ++ pr.1, pr.2)
  else (r.1, .error .calledProcessError)

/-- C5: once the PR-creation request has succeeded, the label-attachment and
auto-merge answers (any statuses, in particular any of the four success/failure
combinations) do not abort the workflow and do not change anything about the
outcome: `create_submodule_pr` still returns the created PR's number. -/
theorem create_submodule_pr_best_effort (ps : Nat) (pn : Int) (ls ms : Nat)
    (repo_name parent_repo branch_name version old_commit new_commit : String)
    (h : ¬(400 ≤ ps ∧ ps < 600)) :
    (create_submodule_pr ⟨ps, pn, ls, ms⟩ repo_name parent_repo branch_name version
      old_commit new_commit).2 = .ok pn ∧
    create_submodule_pr ⟨ps, pn, ls, ms⟩ repo_name parent_repo branch_name version
      old_commit new_commit =
    create_submodule_pr ⟨ps, pn, 200, 200⟩ repo_name parent_repo branch_name version
      old_commit new_commit := by
  constructor
  · simp [create_submodule_pr, raise_for_status, h]
  · rfl

/-- Witness for C5: a label failure (404) combined with a merge failure (405)
still yields the PR number. -/
theorem create_submodule_pr_best_effort_witness :
    (create_submodule_pr ⟨201, 42, 404, 405⟩ "x" "parent" "update-x-v2.0.0" "v2.0.0"
      "abc123" "def456").2 = .ok 42 :=
  (create_submodule_pr_best_effort 201 42 404 405 "x" "parent" "update-x-v2.0.0"
    "v2.0.0" "abc123" "def456" (by decide)).1

/-! ### Generic facts about `runSteps` -/

theorem append_left_pref (l : List GitEvent) {l1 l2 : List GitEvent}
    (h : l1 <+: l2) : l ++ l1 <+: l ++ l2 := by
  obtain ⟨t, ht⟩ := h
  exact ⟨t, by rw [List.append_assoc, ht]⟩

theorem pref_append (l1 l2 : List GitEvent) : l1 <+: l1 ++ l2 := ⟨l2, rfl⟩

theorem runSteps_trace_pref (steps : List (List GitEvent × Bool)) :
    (runSteps steps).1 <+: (steps.map Prod.fst).flatten := by
  induction steps with
  | nil => simp [runSteps]
  | cons s rest ih =>
    obtain ⟨evs, ok⟩ := s
    cases ok with
    | true =>
      simpa [runSteps] using append_left_pref evs ih
    | false =>
      simpa [runSteps] using pref_append evs _

theorem runSteps_all_ok (steps : List (List GitEvent × Bool))
    (h : (runSteps steps).2 = true) :
    (runSteps steps).1 = (steps.map Prod.fst).flatten ∧ ∀ s ∈ steps, s.2 = true := by
  induction steps with
  | nil => exact ⟨rfl, by simp⟩
  | cons s rest ih =>
    obtain ⟨evs, ok⟩ := s
    cases ok with
    | true =>
      have h2 : (runSteps rest).2 = true := by simpa [runSteps] using h
      obtain ⟨htr, hall⟩ := ih h2
      refine ⟨by simp [runSteps, htr], ?_⟩
      intro x hx
      rcases List.mem_cons.mp hx with h | h
      · rw [h]
      · exact hall x h
    | false =>
      exact absurd h (by simp [runSteps])

/-! ### C7: linear stage order of the submodule workflow -/

/-- The full ordered schedule of external calls of one `update_submodule` run
under the environment's filesystem conditions: every git stage in source order,
followed by the three HTTP calls of `create_submodule_pr` (as emitted when the
PR POST is answered successfully). -/
def plannedEvents (env : SubmoduleEnv) (parent_repo submodule_path new_version
    repo_name : String) : List GitEvent :=
  ((gitSteps env submodule_path new_version repo_name).map Prod.fst).flatten ++
    (create_submodule_pr { env.pr with pr_status := 200 } repo_name parent_repo
      ("update-" ++ repo_name ++ "-" ++ new_version) new_version
      (match env.old_commit with | some cm => cm | none => "initial")
      (env.new_commit.getD "")).1

theorem postPR_not_in_gitSteps (env : SubmoduleEnv) (sp v rn : String)
    (req : PrRequest) :
    GitEvent.postPullRequest req ∉ ((gitSteps env sp v rn).map Prod.fst).flatten := by
  intro h
  cases hpe : env.path_exists <;> cases hgd : env.git_dir_exists <;>
    simp [gitSteps, hpe, hgd] at h

theorem create_submodule_pr_trace_pref (env : PrEnv)
    (repo_name parent_repo branch_name version old_commit new_commit : String) :
    (create_submodule_pr env repo_name parent_repo branch_name version old_commit
      new_commit).1 <+:
    (create_submodule_pr { env with pr_status := 200 } repo_name parent_repo
      branch_name version old_commit new_commit).1 := by
  have h200 : raise_for_status ({ env with pr_status := 200 } : PrEnv).pr_status =
      .ok () := by
    simp [raise_for_status]
  cases hrs : raise_for_status env.pr_status with
  | error e =>
    simp only [create_submodule_pr, hrs, h200]
    exact ⟨[.postLabels ["semver:patch"], _], rfl⟩
  | ok u =>
    simp only [create_submodule_pr, hrs, h200]
    exact ⟨[], by simp⟩

/-- C7: the submodule-update workflow executes its stages in the fixed linear
order given by `plannedEvents` — the emitted trace is always a prefix of that
schedule; the schedule contains no repeated stage (no retry); and the
PR-creation request is only ever issued after every git stage — in particular
clone, commit and push — completed successfully. -/
theorem update_submodule_linear_order (env : SubmoduleEnv)
    (parent_repo submodule_path new_version repo_name : String) :
    (update_submodule env parent_repo submodule_path new_version repo_name).1 <+:
      plannedEvents env parent_repo submodule_path new_version repo_name ∧
    (plannedEvents env parent_repo submodule_path new_version repo_name).Nodup ∧
    (∀ req, GitEvent.postPullRequest req ∈
        (update_submodule env parent_repo submodule_path new_version repo_name).1 →
      env.clone_ok = true ∧ env.commit_ok = true ∧ env.push_ok = true) := by
  refine ⟨?_, ?_, ?_⟩
  · cases hr : (runSteps (gitSteps env submodule_path new_version repo_name)).2 with
    | false =>
      have h1 := runSteps_trace_pref (gitSteps env submodule_path new_version repo_name)
      have h2 : (update_submodule env parent_repo submodule_path new_version repo_name).1 =
          (runSteps (gitSteps env submodule_path new_version repo_name)).1 := by
        simp [update_submodule, hr]
      rw [h2]
      exact h1.trans (pref_append _ _)
    | true =>
      obtain ⟨htr, _⟩ := runSteps_all_ok _ hr
      have h2 : (update_submodule env parent_repo submodule_path new_version repo_name).1 =
          (runSteps (gitSteps env submodule_path new_version repo_name)).1 ++
          (create_submodule_pr env.pr repo_name parent_repo
            ("update-" ++ repo_name ++ "-" ++ new_version) new_version
            (match env.old_commit with | some cm => cm | none => "initial")
            (env.new_commit.getD "")).1 := by
        simp [update_submodule, hr]
      rw [h2, htr]
      exact append_left_pref _ (create_submodule_pr_trace_pref env.pr _ _ _ _ _ _)
  · have h200 : raise_for_status (200 : Nat) = .ok () := by simp [raise_for_status]
    cases hpe : env.path_exists <;> cases hgd : env.git_dir_exists <;>
      simp [plannedEvents, gitSteps, create_submodule_pr, hpe, hgd, h200]
  · intro req hmem
    cases hr : (runSteps (gitSteps env submodule_path new_version repo_name)).2 with
    | false =>
      exfalso
      have h2 : (update_submodule env parent_repo submodule_path new_version repo_name).1 =
          (runSteps (gitSteps env submodule_path new_version repo_name)).1 := by
        simp [update_submodule, hr]
      rw [h2] at hmem
      exact postPR_not_in_gitSteps env submodule_path new_version repo_name req
        ((runSteps_trace_pref _).sublist.mem hmem)
    | true =>
      obtain ⟨_, hall⟩ := runSteps_all_ok _ hr
      refine ⟨?_, ?_, ?_⟩
      · exact hall ([.clone], env.clone_ok) (by simp [gitSteps])
      · exact hall ([.gitCommit ("chore: update " ++ repo_name ++ " submodule to " ++
          new_version)], env.commit_ok) (by simp [gitSteps])
      · exact hall ([.gitPush ("update-" ++ repo_name ++ "-" ++ new_version)],
          env.push_ok) (by simp [gitSteps])

/-! ### C6: branch naming and PR content -/

/-- `pat` occurs verbatim (as a contiguous substring) inside `s`. -/
def strContains (s pat : String) : Prop :=
  ∃ l r : List Char, s.data = l ++ pat.data ++ r

theorem submodulePrRequest_body_contains (rn bn v oc nc : String) :
    strContains (submodulePrRequest rn bn v oc nc).body oc ∧
    strContains (submodulePrRequest rn bn v oc nc).body nc ∧
    strContains (submodulePrRequest rn bn v oc nc).body v := by
  refine ⟨⟨("This PR updates the " ++ rn ++ " submodule from commit `").data,
      ("` to `" ++ nc ++ "`\n\nVersion: " ++ v).data, ?_⟩,
    ⟨("This PR updates the " ++ rn ++ " submodule from commit `" ++ oc ++ "` to `").data,
      ("`\n\nVersion: " ++ v).data, ?_⟩,
    ⟨("This PR updates the " ++ rn ++ " submodule from commit `" ++ oc ++ "` to `" ++
      nc ++ "`\n\nVersion: ").data, [], ?_⟩⟩ <;>
    simp [submodulePrRequest, str_data_append, List.append_assoc]

theorem create_submodule_pr_postPR (env : PrEnv)
    (rn pr bn v oc nc : String) (req : PrRequest)
    (h : GitEvent.postPullRequest req ∈ (create_submodule_pr env rn pr bn v oc nc).1) :
    req = submodulePrRequest rn bn v oc nc := by
  cases hrs : raise_for_status env.pr_status with
  | error e =>
    simp [create_submodule_pr, hrs] at h
    exact h
  | ok u =>
    simp [create_submodule_pr, hrs] at h
    exact h

theorem checkoutBranch_in_gitSteps (env : SubmoduleEnv) (sp v rn bname : String)
    (h : GitEvent.checkoutBranch bname ∈ ((gitSteps env sp v rn).map Prod.fst).flatten) :
    bname = "update-" ++ rn ++ "-" ++ v := by
  cases hpe : env.path_exists <;> cases hgd : env.git_dir_exists <;>
    simp [gitSteps, hpe, hgd] at h <;> exact h

theorem checkoutBranch_not_in_pr_trace (env : PrEnv) (rn pr bn v oc nc bname : String)
    (h : GitEvent.checkoutBranch bname ∈ (create_submodule_pr env rn pr bn v oc nc).1) :
    False := by
  cases hrs : raise_for_status env.pr_status <;>
    simp [create_submodule_pr, hrs] at h

/-- C6: every branch-creation event of an `update_submodule` run uses exactly
the branch name `update-{repo_name}-{version}`, and every PR-creation request it
issues has that branch as `head`, the fixed string `master` as `base`, and a
body containing verbatim the recorded pre-update commit id (the sentinel
`initial` when `git rev-parse` found none), the post-update commit id, and the
version string. -/
theorem update_submodule_pr_content (env : SubmoduleEnv)
    (parent_repo submodule_path new_version repo_name : String) :
    (∀ bname, GitEvent.checkoutBranch bname ∈
        (update_submodule env parent_repo submodule_path new_version repo_name).1 →
      bname = "update-" ++ repo_name ++ "-" ++ new_version) ∧
    (∀ req, GitEvent.postPullRequest req ∈
        (update_submodule env parent_repo submodule_path new_version repo_name).1 →
      req.head = "update-" ++ repo_name ++ "-" ++ new_version ∧
      req.base = "master" ∧
      strContains req.body (match env.old_commit with | some cm => cm | none => "initial") ∧
      (∀ nc, env.new_commit = some nc → strContains req.body nc) ∧
      strContains req.body new_version) := by
  constructor
  · intro bname hmem
    cases hr : (runSteps (gitSteps env submodule_path new_version repo_name)).2 with
    | false =>
      have h2 : (update_submodule env parent_repo submodule_path new_version repo_name).1 =
          (runSteps (gitSteps env submodule_path new_version repo_name)).1 := by
        simp [update_submodule, hr]
      rw [h2] at hmem
      exact checkoutBranch_in_gitSteps env submodule_path new_version repo_name bname
        ((runSteps_trace_pref _).sublist.mem hmem)
    | true =>
      obtain ⟨htr, _⟩ := runSteps_all_ok _ hr
      have h2 : (update_submodule env parent_repo submodule_path new_version repo_name).1 =
          (runSteps (gitSteps env submodule_path new_version repo_name)).1 ++
          (create_submodule_pr env.pr repo_name parent_repo
            ("update-" ++ repo_name ++ "-" ++ new_version) new_version
            (match env.old_commit with | some cm => cm | none => "initial")
            (env.new_commit.getD "")).1 := by
        simp [update_submodule, hr]
      rw [h2] at hmem
      rcases List.mem_append.mp hmem with h | h
      · rw [htr] at h
        exact checkoutBranch_in_gitSteps env submodule_path new_version repo_name bname h
      · exact absurd h (fun h => checkoutBranch_not_in_pr_trace env.pr _ _ _ _ _ _ _ h)
  · intro req hmem
    cases hr : (runSteps (gitSteps env submodule_path new_version repo_name)).2 with
    | false =>
      exfalso
      have h2 : (update_submodule env parent_repo submodule_path new_version repo_name).1 =
          (runSteps (gitSteps env submodule_path new_version repo_name)).1 := by
        simp [update_submodule, hr]
      rw [h2] at hmem
      exact postPR_not_in_gitSteps env submodule_path new_version repo_name req
        ((runSteps_trace_pref _).sublist.mem hmem)
    | true =>
      have h2 : (update_submodule env parent_repo submodule_path new_version repo_name).1 =
          (runSteps (gitSteps env submodule_path new_version repo_name)).1 ++
          (create_submodule_pr env.pr repo_name parent_repo
            ("update-" ++ repo_name ++ "-" ++ new_version) new_version
            (match env.old_commit with | some cm => cm | none => "initial")
            (env.new_commit.getD "")).1 := by
        simp [update_submodule, hr]
      rw [h2] at hmem
      rcases List.mem_append.mp hmem with h | h
      · exact absurd ((runSteps_all_ok _ hr).1 ▸ h)
          (postPR_not_in_gitSteps env submodule_path new_version repo_name req)
      · have hreq := create_submodule_pr_postPR env.pr _ _ _ _ _ _ req h
        subst hreq
        have hbody := submodulePrRequest_body_contains repo_name
          ("update-" ++ repo_name ++ "-" ++ new_version) new_version
          (match env.old_commit with | some cm => cm | none => "initial")
          (env.new_commit.getD "")
        refine ⟨rfl, rfl, hbody.1, ?_, hbody.2.2⟩
        intro nc hnc
        have : env.new_commit.getD "" = nc := by rw [hnc]; rfl
        exact this ▸ hbody.2.1

/-- A fully successful collaborator environment for the submodule workflow. -/
def envAll : SubmoduleEnv :=
  ⟨true, true, true, true, true, true, true, some "abc123", true, true,
    some "def456", true, true, true, ⟨201, 42, 200, 200⟩⟩

/-- Witness for C6 at a fully successful concrete run with `repo_name = "x"`
and version `v2.0.0`. -/
theorem update_submodule_pr_content_witness :
    (GitEvent.postPullRequest (submodulePrRequest "x" "update-x-v2.0.0" "v2.0.0"
        "abc123" "def456") ∈
      (update_submodule envAll "parent" "libs/x" "v2.0.0" "x").1) ∧
    (submodulePrRequest "x" "update-x-v2.0.0" "v2.0.0" "abc123" "def456").head =
      "update-x-v2.0.0" ∧
    (submodulePrRequest "x" "update-x-v2.0.0" "v2.0.0" "abc123" "def456").base =
      "master" ∧
    strContains (submodulePrRequest "x" "update-x-v2.0.0" "v2.0.0" "abc123"
      "def456").body "abc123" ∧
    strContains (submodulePrRequest "x" "update-x-v2.0.0" "v2.0.0" "abc123"
      "def456").body "def456" ∧
    strContains (submodulePrRequest "x" "update-x-v2.0.0" "v2.0.0" "abc123"
      "def456").body "v2.0.0" := by
  have hmem : GitEvent.postPullRequest (submodulePrRequest "x" "update-x-v2.0.0"
      "v2.0.0" "abc123" "def456") ∈
      (update_submodule envAll "parent" "libs/x" "v2.0.0" "x").1 := by decide
  have h := (update_submodule_pr_content envAll "parent" "libs/x" "v2.0.0" "x").2 _ hmem
  refine ⟨hmem, ?_, ?_, ?_, ?_, ?_⟩
  · rw [show ("update-x-v2.0.0" : String) = "update-" ++ "x" ++ "-" ++ "v2.0.0" by decide]
    exact h.1
  · exact h.2.1
  · exact h.2.2.1
  · exact h.2.2.2.1 "def456" rfl
  · exact h.2.2.2.2

/-- Witness for C7: in the fully successful concrete run, the PR request is in
the trace and the clone, commit and push stages all succeeded. -/
theorem update_submodule_linear_order_witness :
    (GitEvent.postPullRequest (submodulePrRequest "x" "update-x-v2.0.0" "v2.0.0"
        "abc123" "def456") ∈
      (update_submodule envAll "parent" "libs/x" "v2.0.0" "x").1) ∧
    envAll.clone_ok = true ∧ envAll.commit_ok = true ∧ envAll.push_ok = true := by
  have hmem : GitEvent.postPullRequest (submodulePrRequest "x" "update-x-v2.0.0"
      "v2.0.0" "abc123" "def456") ∈
      (update_submodule envAll "parent" "libs/x" "v2.0.0" "x").1 := by decide
  exact ⟨hmem,
    (update_submodule_linear_order envAll "parent" "libs/x" "v2.0.0" "x").2.2 _ hmem⟩

end GithubOps
